import Mathlib

/-!
Shallow embedding of the algorithmic core of the LHU-FaceID repository
(src/face_utils.py: class FaceMatcher; src/multi_image_trainer.py: class
MultiImageTrainer) and proofs about it.

Modelling conventions.

Scalars: the Python code computes with IEEE doubles; the model uses exact
rationals.  The one IEEE behaviour the code observably relies on is NaN
production and propagation (dividing a zero-norm vector by its norm, taking
the mean of an empty slice) and the fact that every ordered comparison
against NaN is False.  The model makes that explicit with the two-constructor
type `FVal` (a NaN or a rational) and NaN-propagating arithmetic on it.
Division of a zero-norm vector by its norm yields NaN in every component
because a vector whose L2 norm is zero has every component equal to zero,
so each component is the IEEE quotient 0.0/0.0 = NaN.

The L2 norm: numpy computes the real square root of the sum of squares; the
model uses `ratSqrt` (a structurally recursive equivalent of the Mathlib
function `Rat.sqrt`, see `ratSqrt_exact`), which agrees with the real square root
exactly when the sum of squares is the square of a rational (every concrete
vector appearing in a witness or counterexample below is chosen so), and is
some fixed rational approximation otherwise.  `ratSqrt q = 0` iff `q = 0`
(for `q ≥ 0`, see `l2norm_eq_zero_iff`), so the zero-norm test is exact.  No
theorem in this file depends on the value of the square root off perfect
squares: each one relates definitions that share the same norm function.

A matrix (numpy 2-D array, built by `np.array(list_of_rows)`) is a
`List (List ℚ)` of rows, all of the same length; its columns are read off
with `colsOf`.  `np.array` raises on ragged input and the callers in the
source catch every exception, so each modelled operation carries the
corresponding guard branch.
-/

/-- An IEEE scalar as the code observes it: a NaN or a (real, here rational)
number.  Payload bits, signed zeros and infinities never arise in the
modelled code paths. -/
inductive FVal where
  | nan : FVal
  | val (x : ℚ) : FVal
deriving DecidableEq, Repr

namespace FVal

/-- NaN-propagating addition. -/
def add : FVal → FVal → FVal
  | val a, val b => val (a + b)
  | _, _ => nan

/-- NaN-propagating multiplication (NaN * 0 = NaN, as in IEEE). -/
def mul : FVal → FVal → FVal
  | val a, val b => val (a * b)
  | _, _ => nan

/-- The Python comparison `s >= t` for a float `s` and a real threshold `t`:
False whenever `s` is NaN. -/
def fge (s : FVal) (t : ℚ) : Bool :=
  match s with
  | nan => false
  | val x => decide (t ≤ x)

/-- The Python comparison `s > b` between two floats: False whenever either
side is NaN. -/
def fgt (s b : FVal) : Bool :=
  match s, b with
  | val x, val y => decide (y < x)
  | _, _ => false

/-- True for a (non-NaN) number. -/
def isNum : FVal → Bool
  | nan => false
  | val _ => true

/-- The rational payload (junk 0 on NaN; used only under an `isNum` guard). -/
def toQ : FVal → ℚ
  | nan => 0
  | val x => x

end FVal

/-- Largest `j ≤ k` with `j * j ≤ n` (`0` when there is none but `j = 0`
always qualifies).  Structural recursion, so it evaluates by kernel
reduction, unlike `Nat.sqrt`. -/
def natSqrtAux (n : Nat) : Nat → Nat
  | 0 => 0
  | k + 1 => if (k + 1) * (k + 1) ≤ n then k + 1 else natSqrtAux n k

/-- The integer square root of `n`: largest `j` with `j * j ≤ n`. -/
def natSqrt (n : Nat) : Nat := natSqrtAux n n

/-- Square root of a rational, exact on squares of rationals (see
`ratSqrt_exact`); mirrors the Mathlib function `Rat.sqrt` (integer square roots of
numerator and denominator) but evaluates by kernel reduction. -/
def ratSqrt (q : ℚ) : ℚ := mkRat (natSqrt q.num.toNat) (natSqrt q.den)

/-- Sum of squares of the components. -/
def sumSq (v : List ℚ) : ℚ :=
  (v.map (fun x => x * x)).sum

/-- The L2 norm `np.linalg.norm(v)`: square root of the sum of squares.
Exact whenever `sumSq v` is the square of a rational (in particular the
zero test, `l2norm v = 0` iff `v` is all-zero, is exact). -/
def l2norm (v : List ℚ) : ℚ :=
  ratSqrt (sumSq v)

/-- The numpy expression `v / np.linalg.norm(v)`.  When the norm is zero
every component of `v` is zero and each component of the result is the IEEE
quotient 0.0/0.0 = NaN; otherwise every component is the exact quotient. -/
def normalizeF (v : List ℚ) : List FVal :=
  if l2norm v = 0 ∧ v ≠ [] then v.map (fun _ => FVal.nan)
  else v.map (fun x => FVal.val (x / l2norm v))

/-- The dot product `np.dot(u, w)` of two equal-length 1-D arrays, with IEEE
NaN propagation. -/
def fdot (u w : List FVal) : FVal :=
  (List.zipWith FVal.mul u w).foldl FVal.add (FVal.val 0)

namespace FaceMatcher

/-- FaceMatcher.cosine_similarity (src/face_utils.py lines 154-177): inside
`try`, re-normalize both embeddings and take their dot product; `except`
anything (in particular the ValueError `np.dot` raises on a length mismatch)
and return 0.0.  Normalization of a zero-norm vector raises nothing — it
silently produces NaN components, which the dot product propagates. -/
def cosine_similarity (e1 e2 : List ℚ) : FVal :=
  if e1.length = e2.length then fdot (normalizeF e1) (normalizeF e2)
  else FVal.val 0

/-- FaceMatcher.match (src/face_utils.py lines 179-201): compute the
similarity, then the tiered status by two `>=` tests.  `tm` and `tu` are the
configured `threshold_match` and `threshold_uncertain`.  (Named `matchOp`
because `match` is a Lean keyword.) -/
def matchOp (tm tu : ℚ) (q r : List ℚ) : String × FVal :=
  let s := cosine_similarity q r
  (if s.fge tm then "MATCH" else if s.fge tu then "UNCERTAIN" else "NO_MATCH", s)

/-- One gallery entry: the student dict fields read by find_best_match
(the dict key named `class` in the source is `class_` here, `class` being a
Lean keyword). -/
structure Student where
  student_id : String
  name : String
  class_ : String
  embedding : List ℚ
deriving DecidableEq, Repr

/-- The best-match dict find_best_match builds for the running best. -/
structure BestMatch where
  student_id : String
  name : String
  class_ : String
  similarity : FVal
  status : String
deriving DecidableEq, Repr

/-- The dict literal of src/face_utils.py lines 224-230. -/
def mkBest (tm tu : ℚ) (q : List ℚ) (s : Student) : BestMatch :=
  let r := matchOp tm tu q s.embedding
  ⟨s.student_id, s.name, s.class_, r.2, r.1⟩

/-- The `for student in students` loop of find_best_match: the running best
record and the running best score, updated only on a strictly greater score
(`if score > best_score`).  The loop also tracks `best_status`, but that
variable only feeds the log message after the loop, so it is not part of the
returned state. -/
def fbmLoop (tm tu : ℚ) (q : List ℚ) :
    List Student → Option BestMatch → FVal → Option BestMatch
  | [], best, _ => best
  | s :: rest, best, bestScore =>
    let sc := (matchOp tm tu q s.embedding).2
    if FVal.fgt sc bestScore then fbmLoop tm tu q rest (some (mkBest tm tu q s)) sc
    else fbmLoop tm tu q rest best bestScore

/-- FaceMatcher.find_best_match (src/face_utils.py lines 203-237):
`best_match = None; best_score = -1`, scan the gallery, return `best_match`
(possibly None — there is no EmptyGalleryError or any other raised error in
the function). -/
def find_best_match (tm tu : ℚ) (q : List ℚ) (students : List Student) :
    Option BestMatch :=
  fbmLoop tm tu q students none (FVal.val (-1))

end FaceMatcher

namespace MultiImageTrainer

/-- Whether `np.array(embeddings)` builds a genuine 2-D matrix: all rows of
the same length.  On ragged input `np.array` raises, and every caller in
src/multi_image_trainer.py wraps its body in `try/except`. -/
def sameDims : List (List ℚ) → Bool
  | [] => true
  | e :: rest => rest.all (fun f => f.length == e.length)

/-- Number of columns of the matrix `np.array(embs)` (rows all of equal
length). -/
def numCols (embs : List (List ℚ)) : Nat := (embs.headD []).length

/-- The columns of the matrix `np.array(embs)`: column `j` collects entry
`j` of every row.  (`getD j 0` is in bounds for every row whenever
`sameDims embs` holds.) -/
def colsOf (embs : List (List ℚ)) : List (List ℚ) :=
  (List.range (numCols embs)).map (fun j => embs.map (fun r => r.getD j 0))

/-- The column-wise mean `np.mean(np.array(embs), axis=0)`. -/
def meanVec (embs : List (List ℚ)) : List ℚ :=
  (colsOf embs).map (fun col => col.sum / (embs.length : ℚ))

/-- MultiImageTrainer.compute_average_embedding (src/multi_image_trainer.py
lines 17-45): `None` on an empty list; otherwise stack, take the column-wise
mean, divide by the norm.  The `except` branch (reached e.g. when `np.array`
raises on ragged input) also returns `None`. -/
def compute_average_embedding (embs : List (List ℚ)) : Option (List FVal) :=
  if embs.length = 0 then none
  else if sameDims embs then some (normalizeF (meanVec embs))
  else none

/-- The element-wise median `np.median(col)` of one column: middle element
of the sorted column for odd length, average of the two middle elements for
even length.  (The empty column never arises: the caller guards
`len(embeddings) == 0`.) -/
def medianQ (col : List ℚ) : ℚ :=
  let sorted := List.insertionSort (· ≤ ·) col
  let n := col.length
  if n % 2 = 1 then sorted.getD (n / 2) 0
  else (sorted.getD (n / 2 - 1) 0 + sorted.getD (n / 2) 0) / 2

/-- `np.median(np.array(embs), axis=0)`: the per-column median. -/
def medianVec (embs : List (List ℚ)) : List ℚ :=
  (colsOf embs).map medianQ

/-- The trim count of compute_robust_embedding:
`n_remove = max(1, int(len(embeddings) * 0.1))`.  For every list length a
float computation can represent exactly, `int(n * 0.1)` truncates to
`n / 10` (floor division). -/
def nRemove (n : Nat) : Nat := max 1 (n / 10)

/-- `np.sort(embeddings_array, axis=0)`: each column sorted ascending
(modelled with insertion sort, which produces the same sorted list). -/
def sortedCols (embs : List (List ℚ)) : List (List ℚ) :=
  (colsOf embs).map (List.insertionSort (· ≤ ·))

/-- The row slice `sorted_emb[n_remove:-n_remove, :]`, seen column-wise:
each sorted column loses its first and last `n_remove` entries.  Empty when
`2 * n_remove ≥` the column length. -/
def trimmedCols (embs : List (List ℚ)) : List (List ℚ) :=
  (sortedCols embs).map
    (fun col => (col.drop (nRemove embs.length)).take
      (col.length - 2 * nRemove embs.length))

/-- `np.mean(col)` of one (possibly empty) column: the mean of an empty
slice is IEEE NaN (numpy emits a RuntimeWarning, raises nothing). -/
def colMeanF (col : List ℚ) : FVal :=
  if col.length = 0 then FVal.nan else FVal.val (col.sum / (col.length : ℚ))

/-- `np.mean(trimmed, axis=0)`: per-column mean of the trimmed matrix,
NaN for the columns the trim emptied. -/
def trimmedMeanVec (embs : List (List ℚ)) : List FVal :=
  (trimmedCols embs).map colMeanF

/-- A real vector as a float vector. -/
def vecF (v : List ℚ) : List FVal := v.map FVal.val

/-- The numpy expression `v / np.linalg.norm(v)` for a float vector that may
already hold NaNs: one NaN component makes the norm NaN and then every
quotient NaN; an all-real vector normalizes as `normalizeF`. -/
def fnormalizeV (v : List FVal) : List FVal :=
  if v.all FVal.isNum then normalizeF (v.map FVal.toQ)
  else v.map (fun _ => FVal.nan)

/-- MultiImageTrainer.compute_robust_embedding (src/multi_image_trainer.py
lines 47-84): `None` on an empty list (and from the `except` branch on
ragged input); otherwise per-column median for method `median`, trimmed mean
for `trimmed_mean`, plain mean for anything else, each followed by the
`robust_embedding / np.linalg.norm(robust_embedding)` normalization. -/
def compute_robust_embedding (embs : List (List ℚ)) (method : String) :
    Option (List FVal) :=
  if embs.length = 0 then none
  else if sameDims embs then
    if method = "median" then some (fnormalizeV (vecF (medianVec embs)))
    else if method = "trimmed_mean" then some (fnormalizeV (trimmedMeanVec embs))
    else some (fnormalizeV (vecF (meanVec embs)))
  else none

/-- The default of the `threshold` parameter of filter_outliers. -/
def filter_outliers_default_threshold : ℚ := 3 / 10

/-- MultiImageTrainer.filter_outliers (src/multi_image_trainer.py lines
86-124): collections of at most 2 members are returned unchanged; otherwise
the centroid is the normalized column-wise mean, each embedding is
normalized and kept iff its dot product with the centroid passes
`sim >= threshold` (False for a NaN similarity), and an empty kept list
falls back to the original collection.  The `except` branch (ragged input)
also returns the original collection. -/
def filter_outliers (embs : List (List ℚ))
    (threshold : ℚ := filter_outliers_default_threshold) : List (List ℚ) :=
  if embs.length ≤ 2 then embs
  else if sameDims embs then
    let centroid := normalizeF (meanVec embs)
    let filtered :=
      embs.filter (fun e => FVal.fge (fdot (normalizeF e) centroid) threshold)
    if filtered.isEmpty then embs else filtered
  else embs

/-- Modelled from the claim wording for comparison with the code: a trim
count of `ceil(10% of the collection size)` (which is at least 1 for any
non-empty collection, so the at-least-1 gloss is absorbed). -/
def nRemoveCeilSpec (n : Nat) : Nat := (n + 9) / 10

/-- The trimmed matrix as the claim describes it, with the ceiling trim
count. -/
def trimmedColsCeilSpec (embs : List (List ℚ)) : List (List ℚ) :=
  (sortedCols embs).map
    (fun col => (col.drop (nRemoveCeilSpec embs.length)).take
      (col.length - 2 * nRemoveCeilSpec embs.length))

/-- compute_robust_embedding as the claim describes it: identical to the
code except that `trimmed_mean` trims `ceil(10%)` per side instead of
`max(1, floor(10%))`. -/
def compute_robust_embedding_ceilSpec (embs : List (List ℚ)) (method : String) :
    Option (List FVal) :=
  if embs.length = 0 then none
  else if sameDims embs then
    if method = "median" then some (fnormalizeV (vecF (medianVec embs)))
    else if method = "trimmed_mean" then
      some (fnormalizeV ((trimmedColsCeilSpec embs).map colMeanF))
    else some (fnormalizeV (vecF (meanVec embs)))
  else none

/-- A 15-row, 2-column collection separating the floor trim count of the
code (1 per side) from the ceiling trim count of the claim (2 per side):
both columns are already sorted, the trim of the code keeps rows 1-13 whose mean
is (3, 4), the ceiling trim would keep rows 2-12 whose mean is (1, 0). -/
def embsFifteen : List (List ℚ) :=
  [[0, 0], [0, 0],
   [1, 0], [1, 0], [1, 0], [1, 0], [1, 0], [1, 0],
   [1, 0], [1, 0], [1, 0], [1, 0], [1, 0],
   [28, 52], [100, 100]]

end MultiImageTrainer

/-! Section: Helper lemmas about the square root and the norm -/

theorem natSqrtAux_mul_self_le (n : Nat) : ∀ k, natSqrtAux n k * natSqrtAux n k ≤ n
  | 0 => by simp [natSqrtAux]
  | k + 1 => by
    unfold natSqrtAux
    split
    · assumption
    · exact natSqrtAux_mul_self_le n k

theorem le_natSqrtAux (n : Nat) : ∀ k j, j ≤ k → j * j ≤ n → j ≤ natSqrtAux n k
  | 0, j, hj, _ => by simp only [natSqrtAux]; omega
  | k + 1, j, hj, hjj => by
    unfold natSqrtAux
    split
    · exact hj
    · rename_i h
      have hne : j ≠ k + 1 := fun e => h (e ▸ hjj)
      exact le_natSqrtAux n k j (by omega) hjj

/-- The structural `natSqrt` agrees with the Mathlib function `Nat.sqrt`. -/
theorem natSqrt_eq_sqrt (n : Nat) : natSqrt n = Nat.sqrt n :=
  le_antisymm (Nat.le_sqrt.mpr (natSqrtAux_mul_self_le n n))
    (le_natSqrtAux n n (Nat.sqrt n) (Nat.sqrt_le_self n) (Nat.sqrt_le n))

/-- The structural `ratSqrt` agrees with the Mathlib function `Rat.sqrt`. -/
theorem ratSqrt_eq_sqrt (q : ℚ) : ratSqrt q = Rat.sqrt q := by
  unfold ratSqrt Rat.sqrt Int.sqrt
  rw [natSqrt_eq_sqrt, natSqrt_eq_sqrt]

/-- The model norm is exact on perfect squares: justifies reading every
concrete norm below as the real square root. -/
theorem ratSqrt_exact (c : ℚ) (hc : 0 ≤ c) : ratSqrt (c * c) = c := by
  rw [ratSqrt_eq_sqrt, Rat.sqrt_eq, abs_of_nonneg hc]

theorem ratSqrt_eq_zero_iff (q : ℚ) (hq : 0 ≤ q) : ratSqrt q = 0 ↔ q = 0 := by
  rw [ratSqrt, natSqrt_eq_sqrt, natSqrt_eq_sqrt,
    Rat.mkRat_eq_zero (by simp only [ne_eq, Nat.sqrt_eq_zero]; exact q.den_nz)]
  rw [Int.natCast_eq_zero, Nat.sqrt_eq_zero, Int.toNat_eq_zero]
  constructor
  · intro h
    exact Rat.num_eq_zero.mp (le_antisymm h (Rat.num_nonneg.mpr hq))
  · intro h
    simp [h]

theorem sumSq_nonneg (v : List ℚ) : 0 ≤ sumSq v := by
  refine List.sum_nonneg ?_
  intro x hx
  obtain ⟨a, _, rfl⟩ := List.mem_map.mp hx
  exact mul_self_nonneg a

theorem sumSq_cons (a : ℚ) (v : List ℚ) : sumSq (a :: v) = a * a + sumSq v := by
  simp [sumSq]

theorem sumSq_eq_zero_iff (v : List ℚ) : sumSq v = 0 ↔ ∀ x ∈ v, x = 0 := by
  induction v with
  | nil => simp [sumSq]
  | cons a v ih =>
    rw [sumSq_cons]
    rw [add_eq_zero_iff_of_nonneg (mul_self_nonneg a) (sumSq_nonneg v)]
    simp [mul_self_eq_zero, ih]

/-- The zero-norm test of the model is exact: the norm vanishes iff every
component does (so the NaN branch of `normalizeF` is exactly the set of
inputs whose every component is the IEEE quotient 0.0/0.0). -/
theorem l2norm_eq_zero_iff (v : List ℚ) : l2norm v = 0 ↔ ∀ x ∈ v, x = 0 := by
  rw [l2norm, ratSqrt_eq_zero_iff _ (sumSq_nonneg v), sumSq_eq_zero_iff]

/-! Section: C1 — the tri-state rule of FaceMatcher.match -/

/-- C1.  For every query and reference and fixed thresholds, match returns
MATCH when the computed similarity is `≥ tm`, otherwise UNCERTAIN when it is
`≥ tu`, otherwise NO_MATCH, together with the score; a score exactly equal
to a threshold lands in the higher tier because both comparisons are
inclusive.  With thresholds match=0.6 and uncertain=0.4, a pair of unit
vectors of similarity 0.65 yields MATCH, 0.5 yields UNCERTAIN and 0.2
yields NO_MATCH. -/
theorem match_tristate_rule (tm tu x : ℚ) (q r : List ℚ)
    (hs : FaceMatcher.cosine_similarity q r = FVal.val x) :
    (tm ≤ x → FaceMatcher.matchOp tm tu q r = ("MATCH", FVal.val x)) ∧
    (¬tm ≤ x → tu ≤ x → FaceMatcher.matchOp tm tu q r = ("UNCERTAIN", FVal.val x)) ∧
    (¬tm ≤ x → ¬tu ≤ x → FaceMatcher.matchOp tm tu q r = ("NO_MATCH", FVal.val x)) ∧
    FaceMatcher.matchOp (6/10) (4/10) [1, 0, 0, 0, 0]
      [13/20, 15/20, 2/20, 1/20, 1/20] = ("MATCH", FVal.val (13/20)) ∧
    FaceMatcher.matchOp (6/10) (4/10) [1, 0, 0, 0, 0]
      [1/2, 1/2, 1/2, 1/2, 0] = ("UNCERTAIN", FVal.val (1/2)) ∧
    FaceMatcher.matchOp (6/10) (4/10) [1, 0, 0, 0, 0]
      [2/10, 8/10, 4/10, 4/10, 0] = ("NO_MATCH", FVal.val (1/5)) := by
  refine ⟨?_, ?_, ?_, ?_, ?_, ?_⟩
  · intro h
    simp [FaceMatcher.matchOp, hs, FVal.fge, h]
  · intro h1 h2
    simp [FaceMatcher.matchOp, hs, FVal.fge, h1, h2]
  · intro h1 h2
    simp [FaceMatcher.matchOp, hs, FVal.fge, h1, h2]
  · with_unfolding_all rfl
  · with_unfolding_all rfl
  · with_unfolding_all rfl

/-- Witness for C1 at a concrete input: similarity 0.65 against thresholds
0.6/0.4 is classified MATCH. -/
theorem match_tristate_rule_witness :
    FaceMatcher.matchOp (6/10) (4/10) [1, 0, 0, 0, 0]
      [13/20, 15/20, 2/20, 1/20, 1/20] = ("MATCH", FVal.val (13/20)) :=
  (match_tristate_rule (6/10) (4/10) (13/20) [1, 0, 0, 0, 0]
      [13/20, 15/20, 2/20, 1/20, 1/20] (by with_unfolding_all rfl)).1
    (by norm_num)
/-! Section: C2 — find_best_match keeps the earliest strict maximum -/

/-- The second component of matchOp is the computed similarity. -/
theorem matchOp_snd (tm tu : ℚ) (q r : List ℚ) :
    (FaceMatcher.matchOp tm tu q r).2 = FaceMatcher.cosine_similarity q r := rfl

/-- Characterization of the find_best_match loop when every remaining score
is a real number (`vals`) and the running best score is the real `m`: either
nothing beats `m` and the accumulator survives, or the loop returns the
record of the earliest candidate attaining the maximum of the remaining
scores (strictly above `m`, weakly above everything, strictly above every
earlier score). -/
theorem fbmLoop_spec (tm tu : ℚ) (q : List ℚ) :
    ∀ (l : List FaceMatcher.Student) (vals : List ℚ),
      l.map (fun s => FaceMatcher.cosine_similarity q s.embedding) =
        vals.map FVal.val →
      ∀ (acc : Option FaceMatcher.BestMatch) (m : ℚ),
      (FaceMatcher.fbmLoop tm tu q l acc (FVal.val m) = acc ∧ ∀ v ∈ vals, v ≤ m) ∨
      (∃ (i : Nat) (s : FaceMatcher.Student) (v : ℚ),
        l[i]? = some s ∧ vals[i]? = some v ∧
        FaceMatcher.fbmLoop tm tu q l acc (FVal.val m) =
          some (FaceMatcher.mkBest tm tu q s) ∧
        m < v ∧ (∀ w ∈ vals, w ≤ v) ∧
        (∀ j w, j < i → vals[j]? = some w → w < v))
  | [], vals, h, acc, m => by
    left
    cases vals with
    | nil => simp [FaceMatcher.fbmLoop]
    | cons a t => simp at h
  | s :: rest, vals, h, acc, m => by
    cases vals with
    | nil => simp at h
    | cons v vs =>
      simp only [List.map_cons, List.cons.injEq] at h
      obtain ⟨hs, hrest⟩ := h
      have hstep : FaceMatcher.fbmLoop tm tu q (s :: rest) acc (FVal.val m) =
          if FVal.fgt (FVal.val v) (FVal.val m) then
            FaceMatcher.fbmLoop tm tu q rest
              (some (FaceMatcher.mkBest tm tu q s)) (FVal.val v)
          else FaceMatcher.fbmLoop tm tu q rest acc (FVal.val m) := by
        simp only [FaceMatcher.fbmLoop, matchOp_snd, hs]
      by_cases hmv : m < v
      · rw [hstep, if_pos (by simp [FVal.fgt, hmv])]
        rcases fbmLoop_spec tm tu q rest vs hrest
            (some (FaceMatcher.mkBest tm tu q s)) v with
          ⟨heq, hall⟩ | ⟨i, s', v', h1, h2, h3, h4, h5, h6⟩
        · right
          refine ⟨0, s, v, by simp, by simp, heq, hmv, ?_, by omega⟩
          intro w hw
          rcases List.mem_cons.mp hw with rfl | hw
          · exact le_refl w
          · exact hall w hw
        · right
          refine ⟨i + 1, s', v', by simpa using h1, by simpa using h2, h3,
            lt_trans hmv h4, ?_, ?_⟩
          · intro w hw
            rcases List.mem_cons.mp hw with rfl | hw
            · exact le_of_lt h4
            · exact h5 w hw
          · intro j w hj hjw
            cases j with
            | zero =>
              simp only [List.getElem?_cons_zero, Option.some.injEq] at hjw
              exact hjw ▸ h4
            | succ j' =>
              simp only [List.getElem?_cons_succ] at hjw
              exact h6 j' w (by omega) hjw
      · rw [hstep, if_neg (by simp [FVal.fgt, hmv])]
        rcases fbmLoop_spec tm tu q rest vs hrest acc m with
          ⟨heq, hall⟩ | ⟨i, s', v', h1, h2, h3, h4, h5, h6⟩
        · left
          refine ⟨heq, ?_⟩
          intro w hw
          rcases List.mem_cons.mp hw with rfl | hw
          · exact not_lt.mp hmv
          · exact hall w hw
        · right
          refine ⟨i + 1, s', v', by simpa using h1, by simpa using h2, h3, h4, ?_, ?_⟩
          · intro w hw
            rcases List.mem_cons.mp hw with rfl | hw
            · exact le_of_lt (lt_of_le_of_lt (not_lt.mp hmv) h4)
            · exact h5 w hw
          · intro j w hj hjw
            cases j with
            | zero =>
              simp only [List.getElem?_cons_zero, Option.some.injEq] at hjw
              exact hjw ▸ lt_of_le_of_lt (not_lt.mp hmv) h4
            | succ j' =>
              simp only [List.getElem?_cons_succ] at hjw
              exact h6 j' w (by omega) hjw

/-- C2 (amended).  When the similarity of every candidate is a real number
(`vals`) and at least one exceeds the -1 the running best score is
initialized to, find_best_match returns the record of the earliest-scanned
candidate attaining the maximal score — the running best is replaced only on
a strictly greater score, so every earlier candidate scores strictly less
and no later candidate scores more — and it is returned whatever its status.
For candidates scoring [0.50, 0.70, 0.70] in scan order (thresholds 0.6/0.4)
the second candidate is returned, and a single candidate scoring 0.20 is
returned with status NO_MATCH. -/
theorem find_best_match_earliest_max (tm tu : ℚ) (q : List ℚ)
    (students : List FaceMatcher.Student) (vals : List ℚ)
    (hv : students.map (fun s => FaceMatcher.cosine_similarity q s.embedding) =
      vals.map FVal.val)
    (hex : ∃ v ∈ vals, -1 < v) :
    (∃ (i : Nat) (s : FaceMatcher.Student) (v : ℚ),
      students[i]? = some s ∧ vals[i]? = some v ∧
      FaceMatcher.find_best_match tm tu q students =
        some (FaceMatcher.mkBest tm tu q s) ∧
      (∀ w ∈ vals, w ≤ v) ∧ (∀ j w, j < i → vals[j]? = some w → w < v)) ∧
    FaceMatcher.find_best_match (6/10) (4/10) [1, 0, 0, 0]
      [⟨"SV001", "An", "12A", [1/2, 1/2, 1/2, 1/2]⟩,
       ⟨"SV002", "Binh", "12B", [7/10, 7/10, 1/10, 1/10]⟩,
       ⟨"SV003", "Chi", "12C", [7/10, 1/10, 7/10, 1/10]⟩] =
      some ⟨"SV002", "Binh", "12B", FVal.val (7/10), "MATCH"⟩ ∧
    FaceMatcher.find_best_match (6/10) (4/10) [1, 0, 0, 0]
      [⟨"SV004", "Dung", "12D", [2/10, 8/10, 4/10, 4/10]⟩] =
      some ⟨"SV004", "Dung", "12D", FVal.val (1/5), "NO_MATCH"⟩ := by
  refine ⟨?_, by with_unfolding_all rfl, by with_unfolding_all rfl⟩
  rcases fbmLoop_spec tm tu q students vals hv none (-1) with
    ⟨_, hall⟩ | ⟨i, s, v, h1, h2, h3, _, h5, h6⟩
  · obtain ⟨v, hvmem, hvgt⟩ := hex
    exact absurd (hall v hvmem) (not_le.mpr hvgt)
  · exact ⟨i, s, v, h1, h2, h3, h5, h6⟩

/-- Witness for C2 at the tie scenario: scores [0.50, 0.70, 0.70], the
first of the two candidates tied at 0.70 wins. -/
theorem find_best_match_earliest_max_witness :
    FaceMatcher.find_best_match (6/10) (4/10) [1, 0, 0, 0]
      [⟨"SV001", "An", "12A", [1/2, 1/2, 1/2, 1/2]⟩,
       ⟨"SV002", "Binh", "12B", [7/10, 7/10, 1/10, 1/10]⟩,
       ⟨"SV003", "Chi", "12C", [7/10, 1/10, 7/10, 1/10]⟩] =
      some ⟨"SV002", "Binh", "12B", FVal.val (7/10), "MATCH"⟩ :=
  (find_best_match_earliest_max (6/10) (4/10) [1, 0, 0, 0]
    [⟨"SV001", "An", "12A", [1/2, 1/2, 1/2, 1/2]⟩,
     ⟨"SV002", "Binh", "12B", [7/10, 7/10, 1/10, 1/10]⟩,
     ⟨"SV003", "Chi", "12C", [7/10, 1/10, 7/10, 1/10]⟩]
    [1/2, 7/10, 7/10] (by with_unfolding_all rfl)
    ⟨1/2, by simp, by norm_num⟩).2.1

/-- Counterexample to C2 as stated: a non-empty gallery for which
find_best_match returns nothing.  The single candidate scores exactly -1 (a
real similarity, not NaN), the `score > best_score` test fails against the
initial `best_score = -1`, and the function returns None instead of the
best-scoring candidate. -/
theorem find_best_match_neg_one_counterexample :
    FaceMatcher.cosine_similarity [1, 0] [-1, 0] = FVal.val (-1) ∧
    FaceMatcher.find_best_match (6/10) (4/10) [1, 0]
      [⟨"SV009", "Ngoc", "12E", [-1, 0]⟩] = none :=
  ⟨by with_unfolding_all rfl, by with_unfolding_all rfl⟩

/-! Section: C4 — empty gallery -/

/-- C4 (amended).  find_best_match on an empty gallery returns None — the
scan never runs, nothing is raised (src/face_utils.py defines no
EmptyGalleryError, and no name of that form exists anywhere in the
repository), and the caller receives the same None a fully rejected gallery
would produce. -/
theorem find_best_match_empty_gallery (tm tu : ℚ) (q : List ℚ) :
    FaceMatcher.find_best_match tm tu q [] = none := rfl

/-- Counterexample to C4 as stated: at a concrete query and the empty
gallery the function returns the ordinary value None rather than failing —
there is no EmptyGalleryError in the code for it to signal. -/
theorem find_best_match_empty_gallery_counterexample :
    FaceMatcher.find_best_match (6/10) (4/10) [1, 0] [] = none := by
  with_unfolding_all rfl

/-! Section: C5 and C9 — cosine_similarity failure behaviour -/

theorem FVal.mul_nan_left (x : FVal) : FVal.mul FVal.nan x = FVal.nan := by
  cases x <;> rfl

theorem FVal.mul_nan_right (x : FVal) : FVal.mul x FVal.nan = FVal.nan := by
  cases x <;> rfl

theorem FVal.add_nan_left (x : FVal) : FVal.add FVal.nan x = FVal.nan := by
  cases x <;> rfl

theorem FVal.add_nan_right (x : FVal) : FVal.add x FVal.nan = FVal.nan := by
  cases x <;> rfl

/-- A NaN accumulator absorbs the whole IEEE sum. -/
theorem foldl_add_nan (l : List FVal) : l.foldl FVal.add FVal.nan = FVal.nan := by
  induction l with
  | nil => rfl
  | cons a l ih => rw [List.foldl_cons, FVal.add_nan_left, ih]

theorem normalizeF_length (v : List ℚ) : (normalizeF v).length = v.length := by
  unfold normalizeF
  split <;> simp

/-- Dividing a zero-norm non-empty vector by its norm gives all NaN. -/
theorem normalizeF_of_zero (v : List ℚ) (h0 : l2norm v = 0) (hne : v ≠ []) :
    normalizeF v = v.map (fun _ => FVal.nan) := by
  rw [normalizeF, if_pos ⟨h0, hne⟩]

/-- A NaN in the first factor list poisons the dot product. -/
theorem fdot_nan_left (v : List ℚ) (w : List FVal) (hv : v ≠ []) (hw : w ≠ []) :
    fdot (v.map (fun _ => FVal.nan)) w = FVal.nan := by
  obtain ⟨a, v, rfl⟩ := List.exists_cons_of_ne_nil hv
  obtain ⟨b, w, rfl⟩ := List.exists_cons_of_ne_nil hw
  show (List.zipWith FVal.mul (FVal.nan :: v.map _) (b :: w)).foldl FVal.add
    (FVal.val 0) = FVal.nan
  rw [List.zipWith_cons_cons, List.foldl_cons, FVal.mul_nan_left,
    FVal.add_nan_right]
  exact foldl_add_nan _

/-- A NaN in the second factor list poisons the dot product. -/
theorem fdot_nan_right (u : List FVal) (w : List ℚ) (hu : u ≠ []) (hw : w ≠ []) :
    fdot u (w.map (fun _ => FVal.nan)) = FVal.nan := by
  obtain ⟨a, u, rfl⟩ := List.exists_cons_of_ne_nil hu
  obtain ⟨b, w, rfl⟩ := List.exists_cons_of_ne_nil hw
  show (List.zipWith FVal.mul (a :: u) (FVal.nan :: w.map _)).foldl FVal.add
    (FVal.val 0) = FVal.nan
  rw [List.zipWith_cons_cons, FVal.mul_nan_right, List.foldl_cons,
    FVal.add_nan_right]
  exact foldl_add_nan _

/-- C5 (amended).  cosine_similarity signals nothing: a dimension mismatch
raises inside the `try` and is converted to the score 0.0, and a zero-norm
(hence all-zero) non-empty input makes the normalization produce NaN
components, so the returned similarity is NaN — the NaN is propagated to
the caller, exactly what the claim says does not happen.  No
InvalidVectorError exists in the repository. -/
theorem cosine_similarity_never_raises :
    (∀ e1 e2 : List ℚ, e1.length ≠ e2.length →
      FaceMatcher.cosine_similarity e1 e2 = FVal.val 0) ∧
    (∀ e1 e2 : List ℚ, e1.length = e2.length → e1 ≠ [] → l2norm e1 = 0 →
      FaceMatcher.cosine_similarity e1 e2 = FVal.nan) ∧
    (∀ e1 e2 : List ℚ, e1.length = e2.length → e2 ≠ [] → l2norm e2 = 0 →
      FaceMatcher.cosine_similarity e1 e2 = FVal.nan) := by
  refine ⟨?_, ?_, ?_⟩
  · intro e1 e2 h
    simp [FaceMatcher.cosine_similarity, h]
  · intro e1 e2 hlen hne h0
    have he2 : e2 ≠ [] := by
      intro h
      exact hne (List.length_eq_zero.mp (by rw [hlen, h]; rfl))
    have hw : normalizeF e2 ≠ [] := by
      intro h
      exact he2 (List.length_eq_zero.mp (by rw [← normalizeF_length e2, h]; rfl))
    rw [FaceMatcher.cosine_similarity, if_pos hlen, normalizeF_of_zero e1 h0 hne]
    exact fdot_nan_left e1 (normalizeF e2) hne hw
  · intro e1 e2 hlen hne h0
    have he1 : e1 ≠ [] := by
      intro h
      exact hne (List.length_eq_zero.mp (by rw [← hlen, h]; rfl))
    have hu : normalizeF e1 ≠ [] := by
      intro h
      exact he1 (List.length_eq_zero.mp (by rw [← normalizeF_length e1, h]; rfl))
    rw [FaceMatcher.cosine_similarity, if_pos hlen, normalizeF_of_zero e2 h0 hne]
    exact fdot_nan_right (normalizeF e1) e2 hu hne

/-- Counterexample to C5 as stated: on the zero-norm input [0, 0] the
similarity returned is NaN — the NaN is propagated, no InvalidVectorError is
signalled — and on a dimension mismatch the caught exception yields the
ordinary score 0.0 rather than a typed error. -/
theorem cosine_similarity_zero_norm_counterexample :
    FaceMatcher.cosine_similarity [0, 0] [1, 0] = FVal.nan ∧
    FaceMatcher.cosine_similarity [1, 0] [1, 0, 0] = FVal.val 0 :=
  ⟨by with_unfolding_all rfl, by with_unfolding_all rfl⟩

/-- C9 (amended).  cosine_similarity is total: when the underlying
computation fails (a dimension mismatch makes np.dot raise) the exception is
caught and the score 0.0 is returned, and match then classifies the pair as
NO_MATCH for any strictly positive uncertain threshold (with
match_threshold at least the uncertain one).  At uncertain threshold exactly
0 the claim fails: 0.0 >= 0 holds, so the pair is classified UNCERTAIN. -/
theorem cosine_mismatch_yields_zero_no_match (e1 e2 : List ℚ) (tm tu : ℚ)
    (hlen : e1.length ≠ e2.length) (htu : 0 < tu) (htm : tu ≤ tm) :
    FaceMatcher.cosine_similarity e1 e2 = FVal.val 0 ∧
    FaceMatcher.matchOp tm tu e1 e2 = ("NO_MATCH", FVal.val 0) := by
  have h1 : ¬tm ≤ (0 : ℚ) := not_le.mpr (lt_of_lt_of_le htu htm)
  have h2 : ¬tu ≤ (0 : ℚ) := not_le.mpr htu
  constructor
  · simp [FaceMatcher.cosine_similarity, hlen]
  · simp [FaceMatcher.matchOp, FaceMatcher.cosine_similarity, hlen, FVal.fge,
      h1, h2]

/-- Witness for C9 at a concrete input: a 2-vector against a 3-vector with
thresholds 0.6/0.4 scores 0.0 and is classified NO_MATCH. -/
theorem cosine_mismatch_yields_zero_no_match_witness :
    FaceMatcher.cosine_similarity [1, 0] [1, 0, 0] = FVal.val 0 ∧
    FaceMatcher.matchOp (6/10) (4/10) [1, 0] [1, 0, 0] =
      ("NO_MATCH", FVal.val 0) :=
  cosine_mismatch_yields_zero_no_match [1, 0] [1, 0, 0] (6/10) (4/10)
    (by decide) (by norm_num) (by norm_num)

/-- Counterexample to C9 as stated: at the non-negative uncertain threshold
0 a mismatched pair scores 0.0 and `0.0 >= 0` holds, so match returns
UNCERTAIN, not NO_MATCH. -/
theorem cosine_mismatch_uncertain_at_zero_threshold :
    FaceMatcher.matchOp (6/10) 0 [1, 0] [1, 0, 0] =
      ("UNCERTAIN", FVal.val 0) := by
  with_unfolding_all rfl

/-! Section: C6 and C7 — compute_average_embedding -/

/-- Counterexample to C6 as stated: on the empty collection the function
returns the ordinary value None — the guard `len(embeddings) == 0` returns
None, nothing is raised, and no EmptyInputError exists in the repository. -/
theorem compute_average_embedding_empty_counterexample :
    MultiImageTrainer.compute_average_embedding [] = none := by
  with_unfolding_all rfl

/-- C6 (amended).  compute_average_embedding returns None on the empty
collection (rather than signalling an EmptyInputError, which the repository
does not define), and on every non-empty equal-dimension collection it
returns one whole template; with the Option result there is no partial
outcome: the caller receives either one vector or None. -/
theorem compute_average_embedding_none_or_whole :
    MultiImageTrainer.compute_average_embedding [] = none ∧
    (∀ embs : List (List ℚ), embs ≠ [] → MultiImageTrainer.sameDims embs = true →
      MultiImageTrainer.compute_average_embedding embs =
        some (normalizeF (MultiImageTrainer.meanVec embs))) := by
  constructor
  · rfl
  · intro embs hne hdim
    rw [MultiImageTrainer.compute_average_embedding,
      if_neg (by simp [List.length_eq_zero, hne]), if_pos hdim]

/-- Entry `j` of a list read back by `getD` over its index range
reassembles the list. -/
theorem range_map_getD (v : List ℚ) :
    (List.range v.length).map (fun j => v.getD j 0) = v := by
  induction v with
  | nil => rfl
  | cons a v ih =>
    rw [List.length_cons, List.range_succ_eq_map, List.map_cons, List.map_map]
    simp only [Function.comp_def, List.getD_cons_zero, List.getD_cons_succ]
    rw [ih]

/-- The column-wise mean of the one-row matrix is the row. -/
theorem meanVec_single (v : List ℚ) : MultiImageTrainer.meanVec [v] = v := by
  unfold MultiImageTrainer.meanVec MultiImageTrainer.colsOf
    MultiImageTrainer.numCols
  simp only [List.headD_cons, List.map_map, List.map_cons, List.map_nil,
    List.length_cons, List.length_nil, zero_add, Nat.cast_one,
    Function.comp_def, List.sum_cons, List.sum_nil, add_zero, div_one]
  exact range_map_getD v

/-- The column-wise mean of `k` copies of a row is the row. -/
theorem meanVec_replicate (k : Nat) (hk : k ≠ 0) (v : List ℚ) :
    MultiImageTrainer.meanVec (List.replicate k v) = v := by
  unfold MultiImageTrainer.meanVec MultiImageTrainer.colsOf
    MultiImageTrainer.numCols
  have hhead : (List.replicate k v).headD [] = v := by
    cases k with
    | zero => exact absurd rfl hk
    | succ k => rfl
  rw [hhead, List.length_replicate, List.map_map]
  have hpt : ∀ j ∈ List.range v.length,
      (((List.replicate k v).map (fun r => r.getD j 0)).sum / (k : ℚ)) =
        v.getD j 0 := by
    intro j _
    rw [List.map_replicate, List.sum_replicate, nsmul_eq_mul]
    exact mul_div_cancel_left₀ _ (Nat.cast_ne_zero.mpr hk)
  calc (List.range v.length).map _ = (List.range v.length).map (fun j => v.getD j 0) :=
        List.map_congr_left hpt
    _ = v := range_map_getD v

/-- All rows of `replicate k v` have the length of `v`. -/
theorem sameDims_replicate (k : Nat) (v : List ℚ) :
    MultiImageTrainer.sameDims (List.replicate k v) = true := by
  cases k with
  | zero => rfl
  | succ k =>
    rw [List.replicate_succ, MultiImageTrainer.sameDims]
    rw [List.all_eq_true]
    intro f hf
    rw [List.eq_of_mem_replicate hf]
    exact beq_self_eq_true _

/-- C7.  For every non-empty equal-dimension collection,
compute_average_embedding is the element-wise (column-wise) mean followed by
L2 normalization; a single-element collection yields that element
normalized, and `k` identical copies of a vector yield that vector
normalized. -/
theorem compute_average_embedding_is_normalized_mean
    (embs : List (List ℚ)) (v : List ℚ) (k : Nat)
    (hne : embs ≠ []) (hdim : MultiImageTrainer.sameDims embs = true)
    (hk : k ≠ 0) :
    MultiImageTrainer.compute_average_embedding embs =
      some (normalizeF (MultiImageTrainer.meanVec embs)) ∧
    MultiImageTrainer.compute_average_embedding [v] = some (normalizeF v) ∧
    MultiImageTrainer.compute_average_embedding (List.replicate k v) =
      some (normalizeF v) := by
  have hmain : ∀ l : List (List ℚ), l ≠ [] → MultiImageTrainer.sameDims l = true →
      MultiImageTrainer.compute_average_embedding l =
        some (normalizeF (MultiImageTrainer.meanVec l)) := by
    intro l hl hdl
    rw [MultiImageTrainer.compute_average_embedding,
      if_neg (by simp [List.length_eq_zero, hl]), if_pos hdl]
  refine ⟨hmain embs hne hdim, ?_, ?_⟩
  · rw [hmain [v] (by simp) rfl, meanVec_single]
  · rw [hmain (List.replicate k v) (by simp [hk]) (sameDims_replicate k v),
      meanVec_replicate k hk v]

/-- Witness for C7 at a concrete input: three copies of (3, 4) average and
normalize to (3/5, 4/5). -/
theorem compute_average_embedding_witness :
    MultiImageTrainer.compute_average_embedding
      (List.replicate 3 [3, 4]) = some (normalizeF [3, 4]) :=
  (compute_average_embedding_is_normalized_mean [[3, 4]] [3, 4] 3
    (by simp) rfl (by decide)).2.2

/-! Section: C3 — filter_outliers -/

/-- The kept-set predicate of filter_outliers in mathematical form: the
boolean test `sim >= threshold` passes exactly when the similarity is a real
number at least the threshold (a NaN similarity never passes). -/
theorem fge_iff_real_ge (s : FVal) (t : ℚ) :
    FVal.fge s t = true ↔ ∃ x : ℚ, s = FVal.val x ∧ t ≤ x := by
  cases s with
  | nan => simp [FVal.fge]
  | val x => simp [FVal.fge]

/-- C3.  filter_outliers returns collections of at most 2 members unchanged;
otherwise it keeps exactly the members whose normalized form has a (real)
cosine similarity of at least the threshold to the centroid — the normalized
column-wise mean of the unnormalized inputs — except that an empty kept set
falls back to the whole original collection; consequently the result of a
non-empty input is never empty.  The default threshold is 0.3. -/
theorem filter_outliers_keeps_near_centroid (embs : List (List ℚ)) (t : ℚ)
    (hne : embs ≠ []) (hdim : MultiImageTrainer.sameDims embs = true) :
    (embs.length ≤ 2 → MultiImageTrainer.filter_outliers embs t = embs) ∧
    (2 < embs.length →
      MultiImageTrainer.filter_outliers embs t =
        if (embs.filter (fun e => FVal.fge (fdot (normalizeF e)
              (normalizeF (MultiImageTrainer.meanVec embs))) t)).isEmpty
        then embs
        else embs.filter (fun e => FVal.fge (fdot (normalizeF e)
              (normalizeF (MultiImageTrainer.meanVec embs))) t)) ∧
    (∀ e : List ℚ, FVal.fge (fdot (normalizeF e)
        (normalizeF (MultiImageTrainer.meanVec embs))) t = true ↔
      ∃ x : ℚ, fdot (normalizeF e) (normalizeF (MultiImageTrainer.meanVec embs)) =
        FVal.val x ∧ t ≤ x) ∧
    MultiImageTrainer.filter_outliers embs t ≠ [] ∧
    MultiImageTrainer.filter_outliers_default_threshold = 3/10 := by
  refine ⟨?_, ?_, fun e => fge_iff_real_ge _ t, ?_, rfl⟩
  · intro h
    rw [MultiImageTrainer.filter_outliers, if_pos h]
  · intro h
    rw [MultiImageTrainer.filter_outliers, if_neg (not_le.mpr h), if_pos hdim]
  · by_cases h2 : embs.length ≤ 2
    · rw [MultiImageTrainer.filter_outliers, if_pos h2]
      exact hne
    · rw [MultiImageTrainer.filter_outliers, if_neg h2, if_pos hdim]
      by_cases hf : (embs.filter (fun e => FVal.fge (fdot (normalizeF e)
          (normalizeF (MultiImageTrainer.meanVec embs))) t)).isEmpty
      · simp only [hf, if_pos]
        exact hne
      · simp only [hf, Bool.false_eq_true, if_false]
        intro hcon
        rw [hcon] at hf
        exact hf rfl

/-- Witness for C3 at a concrete input: a 3-member collection passes the
never-empty guarantee. -/
theorem filter_outliers_keeps_near_centroid_witness :
    MultiImageTrainer.filter_outliers [[1, 0], [1, 0], [0, 1]] (3/10) ≠ [] :=
  (filter_outliers_keeps_near_centroid [[1, 0], [1, 0], [0, 1]] (3/10)
    (by simp) rfl).2.2.2.1

/-! Section: C8 — compute_robust_embedding methods -/

/-- C8 (amended).  For every non-empty equal-dimension collection:
method `median` takes the element-wise (per-column) median and normalizes;
method `trimmed_mean` sorts the values per dimension, drops the lowest and
highest `max(1, floor(10% of n))` samples per dimension — a floor, not a
ceiling: at n = 15 the code trims 1 per side where `ceil` would trim 2 —
averages the remainder and normalizes; any other method falls back to the
plain mean, normalized.  The trim count is at least 1 for every collection
size. -/
theorem compute_robust_embedding_methods (embs : List (List ℚ))
    (method : String) (hne : embs ≠ [])
    (hdim : MultiImageTrainer.sameDims embs = true) :
    (method = "median" →
      MultiImageTrainer.compute_robust_embedding embs method =
        some (MultiImageTrainer.fnormalizeV (MultiImageTrainer.vecF
          ((MultiImageTrainer.colsOf embs).map MultiImageTrainer.medianQ)))) ∧
    (method = "trimmed_mean" →
      MultiImageTrainer.compute_robust_embedding embs method =
        some (MultiImageTrainer.fnormalizeV
          (((MultiImageTrainer.colsOf embs).map (fun col =>
            let sorted := List.insertionSort (fun a b => a ≤ b) col
            (sorted.drop (MultiImageTrainer.nRemove embs.length)).take
              (sorted.length - 2 * MultiImageTrainer.nRemove embs.length))).map
            MultiImageTrainer.colMeanF))) ∧
    (method ≠ "median" → method ≠ "trimmed_mean" →
      MultiImageTrainer.compute_robust_embedding embs method =
        some (MultiImageTrainer.fnormalizeV (MultiImageTrainer.vecF
          (MultiImageTrainer.meanVec embs)))) ∧
    (∀ n : Nat, MultiImageTrainer.nRemove n = max 1 (n / 10)) ∧
    (∀ n : Nat, 1 ≤ MultiImageTrainer.nRemove n) := by
  have hlen : ¬embs.length = 0 := by simp [List.length_eq_zero, hne]
  refine ⟨?_, ?_, ?_, fun n => rfl, fun n => Nat.le_max_left 1 _⟩
  · intro hm
    rw [MultiImageTrainer.compute_robust_embedding, if_neg hlen, if_pos hdim,
      if_pos hm]
    rfl
  · intro hm
    have hm' : ¬method = "median" := by rw [hm]; decide
    rw [MultiImageTrainer.compute_robust_embedding, if_neg hlen, if_pos hdim,
      if_neg hm', if_pos hm]
    simp only [MultiImageTrainer.trimmedMeanVec, MultiImageTrainer.trimmedCols,
      MultiImageTrainer.sortedCols, List.map_map, Function.comp_def]
  · intro h1 h2
    rw [MultiImageTrainer.compute_robust_embedding, if_neg hlen, if_pos hdim,
      if_neg h1, if_neg h2]

/-- Witness for C8 at a concrete input: an unrecognized method name falls
back to the plain normalized mean. -/
theorem compute_robust_embedding_methods_witness :
    MultiImageTrainer.compute_robust_embedding [[3, 4]] "mode" =
      some (MultiImageTrainer.fnormalizeV (MultiImageTrainer.vecF
        (MultiImageTrainer.meanVec [[3, 4]]))) :=
  ((compute_robust_embedding_methods [[3, 4]] "mode" (by simp) rfl).2.2.1)
    (by decide) (by decide)

/-- Counterexample to C8 as stated: at 15 embeddings the code trims
`max(1, int(15 * 0.1)) = 1` per side, not `ceil(1.5) = 2`; on a concrete
15-row collection the two trim counts produce different templates, so the
claimed ceiling behaviour is not what the code computes. -/
theorem trimmed_mean_floor_not_ceil_counterexample :
    MultiImageTrainer.nRemove 15 = 1 ∧
    MultiImageTrainer.nRemoveCeilSpec 15 = 2 ∧
    MultiImageTrainer.compute_robust_embedding MultiImageTrainer.embsFifteen
      "trimmed_mean" = some [FVal.val (3/5), FVal.val (4/5)] ∧
    MultiImageTrainer.compute_robust_embedding_ceilSpec
      MultiImageTrainer.embsFifteen "trimmed_mean" =
      some [FVal.val 1, FVal.val 0] ∧
    MultiImageTrainer.compute_robust_embedding MultiImageTrainer.embsFifteen
      "trimmed_mean" ≠
      MultiImageTrainer.compute_robust_embedding_ceilSpec
        MultiImageTrainer.embsFifteen "trimmed_mean" := by
  have h1 : MultiImageTrainer.compute_robust_embedding
      MultiImageTrainer.embsFifteen "trimmed_mean" =
      some [FVal.val (3/5), FVal.val (4/5)] := by with_unfolding_all rfl
  have h2 : MultiImageTrainer.compute_robust_embedding_ceilSpec
      MultiImageTrainer.embsFifteen "trimmed_mean" =
      some [FVal.val 1, FVal.val 0] := by with_unfolding_all rfl
  refine ⟨by with_unfolding_all rfl, by with_unfolding_all rfl, h1, h2, ?_⟩
  rw [h1, h2]
  intro h
  simp only [Option.some.injEq, List.cons.injEq, FVal.val.injEq] at h
  exact absurd h.1 (by norm_num)

/-! Section: C10 — trimmed_mean needs at least 3 embeddings -/

/-- Every column of the matrix has one entry per row. -/
theorem colsOf_col_length (embs : List (List ℚ)) (col : List ℚ)
    (h : col ∈ MultiImageTrainer.colsOf embs) : col.length = embs.length := by
  obtain ⟨j, _, rfl⟩ := List.mem_map.mp h
  exact List.length_map ..

/-- C10.  compute_robust_embedding with method trimmed_mean implicitly
requires at least 3 embeddings: at collection size 1 or 2 the trim count of
1 per side empties every sorted column, the per-column average runs over an
empty slice and is NaN, and the normalization keeps it NaN, so the function
returns an all-NaN vector — no well-defined template — while the guarded
`len(embeddings) == 0` branch (the only error branch) does not fire; at
size at least 3 every trimmed column is non-empty. -/
theorem trimmed_mean_needs_three_embeddings (embs embs3 : List (List ℚ))
    (hn : embs.length = 1 ∨ embs.length = 2)
    (hdim : MultiImageTrainer.sameDims embs = true)
    (h3 : 3 ≤ embs3.length) :
    (∀ col ∈ MultiImageTrainer.trimmedCols embs, col = []) ∧
    MultiImageTrainer.compute_robust_embedding embs "trimmed_mean" =
      some ((MultiImageTrainer.colsOf embs).map (fun _ => FVal.nan)) ∧
    MultiImageTrainer.compute_robust_embedding embs "trimmed_mean" ≠ none ∧
    (∀ col ∈ MultiImageTrainer.trimmedCols embs3, col ≠ []) := by
  have hk : MultiImageTrainer.nRemove embs.length = 1 := by
    rw [MultiImageTrainer.nRemove]
    omega
  have hempty : ∀ col ∈ MultiImageTrainer.trimmedCols embs, col = [] := by
    intro col hcol
    obtain ⟨c, hc, rfl⟩ := List.mem_map.mp hcol
    obtain ⟨c0, hc0, rfl⟩ := List.mem_map.mp hc
    have hlen : (List.insertionSort (fun a b => a ≤ b) c0).length = embs.length := by
      rw [List.length_insertionSort]
      exact colsOf_col_length embs c0 hc0
    rw [hk, hlen]
    have : embs.length - 2 * 1 = 0 := by omega
    rw [this, List.take_zero]
  have hmean : MultiImageTrainer.trimmedMeanVec embs =
      (MultiImageTrainer.colsOf embs).map (fun _ => FVal.nan) := by
    rw [MultiImageTrainer.trimmedMeanVec]
    have h1 : (MultiImageTrainer.trimmedCols embs).map MultiImageTrainer.colMeanF =
        (MultiImageTrainer.trimmedCols embs).map (fun _ => FVal.nan) := by
      refine List.map_congr_left ?_
      intro c hc
      rw [hempty c hc]
      rfl
    rw [h1, MultiImageTrainer.trimmedCols, MultiImageTrainer.sortedCols,
      List.map_map, List.map_map]
    rfl
  have hnan : MultiImageTrainer.fnormalizeV
      ((MultiImageTrainer.colsOf embs).map (fun _ => FVal.nan)) =
      (MultiImageTrainer.colsOf embs).map (fun _ => FVal.nan) := by
    cases hcs : MultiImageTrainer.colsOf embs with
    | nil => rfl
    | cons c cs =>
      rw [MultiImageTrainer.fnormalizeV, List.map_cons,
        if_neg (by simp [FVal.isNum])]
      simp [List.map_map, Function.comp_def]
  have hres : MultiImageTrainer.compute_robust_embedding embs "trimmed_mean" =
      some ((MultiImageTrainer.colsOf embs).map (fun _ => FVal.nan)) := by
    rw [MultiImageTrainer.compute_robust_embedding,
      if_neg (by omega), if_pos hdim, if_neg (by decide), if_pos rfl,
      hmean, hnan]
  refine ⟨hempty, hres, by rw [hres]; simp, ?_⟩
  intro col hcol
  obtain ⟨c, hc, rfl⟩ := List.mem_map.mp hcol
  obtain ⟨c0, hc0, rfl⟩ := List.mem_map.mp hc
  have hlen : (List.insertionSort (fun a b => a ≤ b) c0).length = embs3.length := by
    rw [List.length_insertionSort]
    exact colsOf_col_length embs3 c0 hc0
  intro hcon
  have hlt : 2 * MultiImageTrainer.nRemove embs3.length < embs3.length := by
    rw [MultiImageTrainer.nRemove]
    omega
  have := congrArg List.length hcon
  rw [List.length_take, List.length_drop, hlen, List.length_nil] at this
  omega

/-- Witness for C10 at a concrete input: two 2-dimensional embeddings yield
the all-NaN template [NaN, NaN]. -/
theorem trimmed_mean_needs_three_embeddings_witness :
    MultiImageTrainer.compute_robust_embedding [[1, 5], [2, 3]] "trimmed_mean" =
      some ((MultiImageTrainer.colsOf [[1, 5], [2, 3]]).map (fun _ => FVal.nan)) :=
  (trimmed_mean_needs_three_embeddings [[1, 5], [2, 3]] [[1], [2], [3]]
    (Or.inr rfl) rfl (by decide)).2.1
